import Mathlib

/-!
Verification of the self-play orchestration core of `src/selfplay/game.cc`
(Leela Chess Zero self-play drivers).

The file shallowly embeds the pieces of the source the claims are about:
  * the move-acceptance retry loop of `SelfPlayGame::Play` (lines 326-359),
  * the resignation check of `SelfPlayGame::Play` (lines 287-324),
  * the training-record backfill of `SelfPlayGame::WriteTrainingData`,
  * the one-ply batched selection of `ValueSelfPlayGames::Play`,
  * the tablebase result-update pass of `ValueSelfPlayGames::Play`,
  * the move-list reconstruction of `SelfPlayGame::GetMoves`.

External collaborators (search, network, board) enter as oracle data; machine
integers are embedded as `Nat`/`Int` with the source's `static_cast<int>`
modelled exactly; `float` evaluation values are embedded as `ℚ` (the
arithmetic performed on them by this code - sums with small integers,
halving, comparisons - is exact in the ranges the code handles).
-/

namespace Lczero

/-- `GameResult` as used by `game.cc` (declared in `chess/position.h`). -/
inductive GameResult
  | UNDECIDED
  | WHITE_WON
  | BLACK_WON
  | DRAW
  deriving DecidableEq, Repr

export GameResult (UNDECIDED WHITE_WON BLACK_WON DRAW)

/-! ## Move-acceptance loop (`SelfPlayGame::Play`, lines 326-359)

Edges at the current head are `(move, visit count)` pairs; visit counts come
from `edge.GetN()` which is a `uint32_t`.  The loop reads the search's best
move, computes `max_n` (strict-greater fold starting at 0) and `cur_n` (the
visit count of the edge matching the reported move, 0 if none matches), and
accepts when `cur_n == max_n || static_cast<int>(cur_n) >= minimum-visits`.
Otherwise it reports the discarded move when the position after it is not
terminal, tells the search to reset its best move, and retries.  Successive
answers of the search are modelled as a list of moves. -/

/-- `static_cast<int>` applied to a `uint32_t` value (two's complement). -/
def toInt32 (n : Nat) : Int :=
  if n < 2 ^ 31 then (n : Int) else (n : Int) - 2 ^ 32

/-- `max_n`: fold of `if (edge.GetN() > max_n) max_n = edge.GetN();`
starting from `uint32_t max_n = 0`. -/
def maxN (edges : List (Nat × Nat)) : Nat :=
  edges.foldl (fun acc e => if e.2 > acc then e.2 else acc) 0

/-- `cur_n`: fold of `if (edge.GetMove(...) == move) cur_n = edge.GetN();`
starting from `uint32_t cur_n = 0`. -/
def curN (edges : List (Nat × Nat)) (move : Nat) : Nat :=
  edges.foldl (fun acc e => if e.1 = move then e.2 else acc) 0

/-- The acceptance test of one loop iteration:
`cur_n == max_n || static_cast<int>(cur_n) >= options.Get<int>(kMinimumAllowedVistsId)`. -/
def acceptMove (edges : List (Nat × Nat)) (threshold : Int) (move : Nat) : Bool :=
  curN edges move == maxN edges || threshold ≤ toInt32 (curN edges move)

/-- The retry loop, driven by the successive answers the search would report
(`GetBestMove` after each `ResetBestMove`).  `isTerminalAfter m` is
`history_copy.ComputeGameResult() != UNDECIDED` for the position after `m`.
Returns the accepted move (`none` if every answer was rejected), the list of
moves reported to the discarded-opening callback, and the number of
`ResetBestMove` calls. -/
def acceptLoop (edges : List (Nat × Nat)) (threshold : Int)
    (isTerminalAfter : Nat → Bool) : List Nat → Option Nat × List Nat × Nat
  | [] => (none, [], 0)
  | move :: rest =>
    if acceptMove edges threshold move then (some move, [], 0)
    else
      let r := acceptLoop edges threshold isTerminalAfter rest
      (r.1, (if isTerminalAfter move then r.2.1 else move :: r.2.1), r.2.2 + 1)

/-- Default of the `MinimumAllowedVisits` option
(`SelfPlayGame::PopulateUciParams`, line 67). -/
def kMinimumAllowedVisitsDefault : Int := 0

/-! ## Resignation check (`SelfPlayGame::Play`, lines 287-324) -/

/-- The per-player resignation-relevant UCI options, with the ranges
declared in `PopulateUciParams`. -/
structure ResignOptions where
  resignWDLStyle : Bool
  resignPercentage : ℚ
  resignEarliestMove : Nat
  deriving DecidableEq, Repr

/-- The resignation check performed after each search, translated from
lines 287-324 of `SelfPlayGame::Play`.  `wl` and `d` are `best_eval.wl` and
`best_eval.d`.  Returns `some r` when the code sets `game_result_ = r` and
breaks out of the turn loop, `none` when play continues. -/
def resignCheck (opts : ResignOptions) (enableResign : Bool) (moveNumber : Nat)
    (blacksMove : Bool) (wl d : ℚ) : Option GameResult :=
  let eval := (wl + 1) / 2
  let bestW := (wl + 1 - d) / 2
  let bestD := d
  let bestL := bestW - wl
  if enableResign ∧ moveNumber ≥ opts.resignEarliestMove then
    let resignpct := opts.resignPercentage / 100
    if opts.resignWDLStyle then
      let threshold := 1 - resignpct
      if bestW > threshold then some (if blacksMove then BLACK_WON else WHITE_WON)
      else if bestL > threshold then some (if blacksMove then WHITE_WON else BLACK_WON)
      else if bestD > threshold then some DRAW
      else none
    else
      if eval < resignpct then some (if blacksMove then WHITE_WON else BLACK_WON)
      else none
  else none

/-! ## Training-record backfill (`SelfPlayGame::WriteTrainingData`, lines 410-432)

A `V5TrainingData` chunk is captured per move with `result` and `plies_left`
left as placeholders; the pipeline fills them in capture order once the game
result is known and hands each chunk to the writer.  Only the fields the
backfill reads or writes are embedded; the rest of the chunk travels
untouched and is represented by the remaining fields being preserved. -/

/-- The input formats of `pblczero::NetworkFormat` distinguished by
`WriteTrainingData` (it only tests for `INPUT_112_WITH_CANONICALIZATION`). -/
inductive InputFormat
  | INPUT_CLASSICAL_112_PLANE
  | INPUT_112_WITH_CASTLING_PLANE
  | INPUT_112_WITH_CANONICALIZATION
  deriving DecidableEq, Repr

/-- The slice of a `V5TrainingData` chunk touched by the backfill.
`side_to_move_or_enpassant` and `invariance_info` are `uint8_t` fields. -/
structure V5TrainingData where
  input_format : InputFormat
  side_to_move_or_enpassant : Nat
  invariance_info : Nat
  best_m : ℚ
  result : Int
  plies_left : ℚ
  deriving DecidableEq, Repr

/-- `bool black_to_move = chunk.side_to_move_or_enpassant;` overridden, for
the canonicalized input format, by bit 7 of `invariance_info`. -/
def chunkBlackToMove (c : V5TrainingData) : Bool :=
  if c.input_format = InputFormat.INPUT_112_WITH_CANONICALIZATION then
    c.invariance_info.testBit 7
  else
    c.side_to_move_or_enpassant ≠ 0

/-- The outcome label written into `chunk.result`. -/
def outcomeLabel (gameResult : GameResult) (blackToMove : Bool) : Int :=
  match gameResult with
  | WHITE_WON => if blackToMove then -1 else 1
  | BLACK_WON => if blackToMove then 1 else -1
  | _ => 0

/-- One iteration of the backfill loop body applied to the chunk copy. -/
def backfillChunk (gameResult : GameResult) (mEstimate : ℚ)
    (c : V5TrainingData) : V5TrainingData :=
  { c with
    result := outcomeLabel gameResult (chunkBlackToMove c)
    plies_left := mEstimate }

/-- The `for (auto chunk : training_data_)` loop: `m_estimate` decreases by
one per chunk; the written chunks are collected in writer-call order. -/
def writeLoop (gameResult : GameResult) : ℚ → List V5TrainingData → List V5TrainingData
  | _, [] => []
  | m, c :: rest => backfillChunk gameResult m c :: writeLoop gameResult (m - 1) rest

/-- `SelfPlayGame::WriteTrainingData`: the empty check, the anchor
`m_estimate = training_data_.back().best_m + training_data_.size() - 1`, and
the backfill loop.  The returned list is the sequence of `WriteChunk` calls. -/
def writeTrainingData (gameResult : GameResult)
    (data : List V5TrainingData) : List V5TrainingData :=
  match data.getLast? with
  | none => []
  | some last => writeLoop gameResult (last.best_m + data.length - 1) data

/-! ## Batch one-ply selection (`ValueSelfPlayGames::Play`, lines 170-200)

For each undecided game of the wave's color the code walks the head's edges
in legal-move generation order, scoring each candidate by the game result of
the position after the move: `-GetQVal` for an undecided continuation, `0`
for a terminal draw, `1` for any other terminal, and keeps the running best
under a non-strict `q >= max_q` update seeded with
`max_q = std::numeric_limits<float>::lowest()` (so the first edge always
replaces the seed; model values are finite). -/

/-- What `history.ComputeGameResult()` plus `GetQVal` yield for the position
after one candidate move. -/
inductive EdgeEval
  | undecided (q : ℚ)
  | terminalDraw
  | terminalOther
  deriving DecidableEq, Repr

/-- The score assigned to a candidate move (lines 181-192). -/
def edgeScore : EdgeEval → ℚ
  | EdgeEval.undecided q => -q
  | EdgeEval.terminalDraw => 0
  | EdgeEval.terminalOther => 1

/-- The `if (q >= max_q)` update; `none` stands for the
`lowest()`-seeded state before any edge was examined. -/
def selectStep (acc : Option (Nat × ℚ)) (x : Nat × ℚ) : Option (Nat × ℚ) :=
  match acc with
  | none => some x
  | some b => if x.2 ≥ b.2 then some x else some b

/-- The selection fold over the edges of one game (`best`, `max_q`). -/
def selectBestMove (edges : List (Nat × EdgeEval)) : Option (Nat × ℚ) :=
  edges.foldl (fun acc e => selectStep acc (e.1, edgeScore e.2)) none

/-- Reference selection, following the spec's words: the entry whose score
is greatest, ties resolved in favor of the LAST entry in order. -/
def lastArgmax : List (Nat × ℚ) → Option (Nat × ℚ)
  | [] => none
  | x :: rest =>
    match lastArgmax rest with
    | none => some x
    | some y => if y.2 ≥ x.2 then some y else some x

/-- Folding a possibly-absent candidate into the running best (proof helper
relating the source fold to `lastArgmax`). -/
def selectComb (acc : Option (Nat × ℚ)) : Option (Nat × ℚ) → Option (Nat × ℚ)
  | none => acc
  | some y => selectStep acc y

/-! ## Tablebase result-update pass (`ValueSelfPlayGames::Play`, lines 102-141)

The first pass of each wave updates `results_[i]` for every game: games whose
stored result is already decided are skipped; a game whose position history
now computes a terminal result records it; otherwise, when a tablebase is
configured, castling is gone and the piece count fits, the tablebase is
probed, and a probe whose state is not `FAIL` decides the game.  Boards and
probe outcomes enter as per-game oracle data. -/

/-- `WDLScore` of the syzygy collaborator, side-to-move perspective. -/
inductive WDLScore
  | WDL_LOSS
  | WDL_BLESSED_LOSS
  | WDL_DRAW
  | WDL_CURSED_WIN
  | WDL_WIN
  deriving DecidableEq, Repr

/-- `ProbeState`; the code only distinguishes `FAIL` from everything else. -/
inductive ProbeState
  | FAIL
  | OK
  | CHANGE_STM
  | ZEROING_BEST_MOVE
  deriving DecidableEq, Repr

/-- Per-game oracle data consumed by the first pass of a wave: the recomputed
game result of the position history, the board facts the probe guard reads,
the ply count, and what `probe_wdl` would return for this position. -/
structure VGameCtx where
  posResult : GameResult
  no_legal_castle : Bool
  piece_count : Nat
  plyCount : Nat
  probeWdl : WDLScore
  probeState : ProbeState
  deriving DecidableEq, Repr

/-- How a non-failed probe's `WDLScore` is mapped to a `GameResult`
(lines 121-130); `tb_side_black` is whose move it is at the probed position. -/
def wdlToResult (tbSideBlack : Bool) : WDLScore → GameResult
  | WDLScore.WDL_WIN => if tbSideBlack then BLACK_WON else WHITE_WON
  | WDLScore.WDL_LOSS => if tbSideBlack then WHITE_WON else BLACK_WON
  | _ => DRAW

/-- The first-pass body for one game (lines 104-134): the updated
`results_[i]` and whether `probe_wdl` was invoked.  `syzygy` is
`none` when `syzygy_tb_ == nullptr`, otherwise `some max_cardinality`. -/
def resultUpdate (syzygy : Option Nat) (ctx : VGameCtx)
    (result : GameResult) : GameResult × Bool :=
  if result ≠ UNDECIDED then (result, false)
  else if ctx.posResult ≠ UNDECIDED then (ctx.posResult, false)
  else
    match syzygy with
    | none => (result, false)
    | some maxCardinality =>
      if ctx.no_legal_castle ∧ ctx.piece_count ≤ maxCardinality then
        let tbSideBlack := ctx.plyCount % 2 = 1
        if ctx.probeState ≠ ProbeState.FAIL then
          (wdlToResult tbSideBlack ctx.probeWdl, true)
        else (result, true)
      else (result, false)

/-- The filter both later passes of a wave apply (lines 148-151 and 172-175):
a game takes part in the wave's evaluation and move application exactly when
its updated result is undecided and its side-to-move matches the wave color. -/
def evalEligible (result : GameResult) (plyCount : Nat) (blacksMove : Bool) : Bool :=
  result == UNDECIDED && ((plyCount % 2 == 1) == blacksMove)

/-- One game's tree and stored result in the batch driver. -/
structure VSlot where
  result : GameResult
  history : List Nat
  deriving DecidableEq, Repr

/-- The oracle data one wave consumes for one game, as functions of the
game's move history: the board/probe context and the scored edges of the
head (in legal-move generation order). -/
structure WaveCtx where
  color : Bool
  syzygy : Option Nat
  ctxOf : List Nat → VGameCtx
  edgesOf : List Nat → List (Nat × EdgeEval)

/-- The effect of one wave on one game: the first pass updates the result,
and the move-application pass appends the selected move exactly when the
game passes the `evalEligible` filter. -/
def slotStep (w : WaveCtx) (s : VSlot) : VSlot :=
  let r := (resultUpdate w.syzygy (w.ctxOf s.history) s.result).1
  if evalEligible r (w.ctxOf s.history).plyCount w.color then
    match selectBestMove (w.edgesOf s.history) with
    | some b => { result := r, history := s.history ++ [b.1] }
    | none => { result := r, history := s.history }
  else { result := r, history := s.history }

/-! ## Single-game turn loop (`SelfPlayGame::Play`, lines 225-365)

The loop recomputes the game result at the top and breaks when it is
decided; otherwise it runs a search (oracle), optionally resigns, runs the
move-acceptance loop, and applies the accepted move to the tree(s).  The
abort flag and search are abstracted: fuel bounds the number of turns, and
running out of fuel (or an acceptance loop that exhausts every answer the
search can produce) ends the run without applying a move, like an abort. -/

/-- What one search invocation reports: the best evaluation, the edges of
the head with their visit counts, the successive best-move answers, and
which candidate moves lead to an already-terminal position. -/
structure SGTurnCtx where
  wl : ℚ
  d : ℚ
  edges : List (Nat × Nat)
  answers : List Nat
  terminalAfter : Nat → Bool

/-- The per-side configuration the turn loop reads (indexed by
`blacks_move`). -/
structure SGConfig where
  resign : Bool → ResignOptions
  minimumVisits : Bool → Int
  enableResign : Bool
  openingPlies : Nat

/-- `move_number = GetLength() / 2 + 1` for the current history. -/
def sgMoveNumber (cfg : SGConfig) (hist : List Nat) : Nat :=
  (cfg.openingPlies + hist.length) / 2 + 1

/-- One turn below the loop-top terminal check: either the resignation
check ends the game, or the acceptance loop yields a move (or starves). -/
def sgTurn (cfg : SGConfig) (oracle : List Nat → SGTurnCtx)
    (blacksMove : Bool) (hist : List Nat) : GameResult ⊕ Option Nat :=
  let t := oracle hist
  match resignCheck (cfg.resign blacksMove) cfg.enableResign
      (sgMoveNumber cfg hist) blacksMove t.wl t.d with
  | some r => Sum.inl r
  | none =>
    Sum.inr (acceptLoop t.edges (cfg.minimumVisits blacksMove)
      t.terminalAfter t.answers).1

/-- The turn loop: returns the final `game_result_` and the list of moves
applied to the tree(s), in order. -/
def sgPlay (cfg : SGConfig) (oracle : List Nat → SGTurnCtx)
    (computeResult : List Nat → GameResult) :
    Nat → Bool → List Nat → GameResult × List Nat
  | 0, _, _ => (UNDECIDED, [])
  | fuel + 1, blacksMove, hist =>
    let r := computeResult hist
    if r ≠ UNDECIDED then (r, [])
    else
      match sgTurn cfg oracle blacksMove hist with
      | Sum.inl r' => (r', [])
      | Sum.inr none => (UNDECIDED, [])
      | Sum.inr (some m) =>
        let rec_ := sgPlay cfg oracle computeResult fuel (!blacksMove) (hist ++ [m])
        (rec_.1, m :: rec_.2)

/-! ## Move-list reconstruction (`SelfPlayGame::GetMoves`, lines 367-385)

Board and move semantics (`Position`, `Move::Mirror`, `GetLegacyMove`,
`NodeTree`) live outside this file's source; they enter as abstract types
and operations, constrained only by laws taken from the spec. -/

/-- The parent chain from the game-begin node to the current head, with the
move on each edge (`GetParent` / `GetEdgeToNode` / `GetMove`). -/
inductive NodeChain (Move : Type)
  | gameBegin
  | node (parent : NodeChain Move) (edgeMove : Move)

/-- The backward walk of `GetMoves` (lines 369-372): moves collected from
the current head down to the game-begin node. -/
def collectBack {Move : Type} : NodeChain Move → List Move
  | NodeChain.gameBegin => []
  | NodeChain.node parent edgeMove => edgeMove :: collectBack parent

/-- The tree's internal move sequence in game order (the backward walk is
consumed back-to-front by the forward loop). -/
def internalMoves {Move : Type} (chain : NodeChain Move) : List Move :=
  (collectBack chain).reverse

/-- Modelled from the spec: the "final position held by the tree" - the
Opening's starting position with every applied move folded in, `apply`
being the external `Position(pos, move)` constructor. -/
def finalPosition {Pos Move : Type} (apply : Pos → Move → Pos)
    (start : Pos) (chain : NodeChain Move) : Pos :=
  (internalMoves chain).foldl apply start

/-- The per-move legacy-castling downgrade of `GetMoves` (line 378):
`if (!chess960_) move = pos.GetBoard().GetLegacyMove(move);`. -/
def legacyConvert {Pos Move : Type} (chess960 : Bool)
    (getLegacy : Pos → Move → Move) (pos : Pos) (m : Move) : Move :=
  if !chess960 then getLegacy pos m else m

/-- The forward loop of `GetMoves` (lines 375-383): downgrade to legacy
castling when chess960 is off, advance the position with the converted move,
then mirror the emitted move when the mover was black (the source tests
`!pos.IsBlackToMove()` on the already-advanced position). -/
def getMovesLoop {Pos Move : Type} (chess960 : Bool) (apply : Pos → Move → Pos)
    (mirrorMove : Move → Move) (isBlackToMove : Pos → Bool)
    (getLegacy : Pos → Move → Move) : Pos → List Move → List Move
  | _, [] => []
  | pos, m :: rest =>
    let m1 := legacyConvert chess960 getLegacy pos m
    let pos1 := apply pos m1
    let m2 := if !(isBlackToMove pos1) then mirrorMove m1 else m1
    m2 :: getMovesLoop chess960 apply mirrorMove isBlackToMove getLegacy pos1 rest

/-- `SelfPlayGame::GetMoves`: backward walk, then forward re-encoding from
the starting position. -/
def getMoves {Pos Move : Type} (chess960 : Bool) (apply : Pos → Move → Pos)
    (mirrorMove : Move → Move) (isBlackToMove : Pos → Bool)
    (getLegacy : Pos → Move → Move) (start : Pos)
    (chain : NodeChain Move) : List Move :=
  getMovesLoop chess960 apply mirrorMove isBlackToMove getLegacy start
    (collectBack chain).reverse

/-- Modelled from the spec: replaying an externally encoded move list from
a position.  An external move is in the convention of the side that played
it; replaying undoes the color-relative mirroring for a black mover and
applies the move (spec section 4.2, "translating each move into the encoding
appropriate for the side that played it"). -/
def replay {Pos Move : Type} (apply : Pos → Move → Pos)
    (mirrorMove : Move → Move) (isBlackToMove : Pos → Bool) :
    Pos → List Move → Pos
  | pos, [] => pos
  | pos, e :: es =>
    let m := if isBlackToMove pos then mirrorMove e else e
    replay apply mirrorMove isBlackToMove (apply pos m) es

/-! ## Chess960 match mode (`SelfPlayGame` constructor and use sites) -/

/-- `chess960_` as the constructor computes it (lines 207-208): the
disjunction of the two players' `UCI_Chess960` options. -/
def chess960Match (player1Flag player2Flag : Bool) : Bool :=
  player1Flag || player2Flag

/-- Shape of the responder chain built before each search (lines 248-256):
the callback responder, wrapped in a `Chess960Transformer` when `!chess960_`. -/
inductive ResponderKind
  | callbackOnly
  | legacyTransformed
  deriving DecidableEq, Repr

/-- The responder construction of `SelfPlayGame::Play` (lines 248-256). -/
def buildResponder (chess960 : Bool) : ResponderKind :=
  if !chess960 then ResponderKind.legacyTransformed else ResponderKind.callbackOnly

/-! # Theorems -/

/-! ## Move acceptance (claims C1 and C10) -/

theorem curN_cases (edges : List (Nat × Nat)) (m : Nat) :
    curN edges m = 0 ∨ ∃ e ∈ edges, curN edges m = e.2 := by
  have h : ∀ (l : List (Nat × Nat)) (init : Nat),
      l.foldl (fun acc e => if e.1 = m then e.2 else acc) init = init ∨
        ∃ e ∈ l, l.foldl (fun acc e => if e.1 = m then e.2 else acc) init = e.2 := by
    intro l
    induction l with
    | nil => exact fun init => Or.inl rfl
    | cons x rest ih =>
      intro init
      simp only [List.foldl_cons]
      rcases ih (if x.1 = m then x.2 else init) with h1 | ⟨e, he, h2⟩
      · by_cases hx : x.1 = m
        · exact Or.inr ⟨x, List.mem_cons_self x rest, by rw [h1, if_pos hx]⟩
        · exact Or.inl (by rw [h1, if_neg hx])
      · exact Or.inr ⟨e, List.mem_cons_of_mem x he, h2⟩
  exact h edges 0

theorem curN_lt_of (edges : List (Nat × Nat)) (m : Nat)
    (h : ∀ e ∈ edges, e.2 < 2 ^ 31) : curN edges m < 2 ^ 31 := by
  rcases curN_cases edges m with h0 | ⟨e, he, h2⟩
  · rw [h0]; norm_num
  · rw [h2]; exact h e he

theorem toInt32_of_lt {n : Nat} (h : n < 2 ^ 31) : toInt32 n = n := if_pos h

theorem acceptMove_iff (edges : List (Nat × Nat)) (thr : Int) (m : Nat)
    (h : ∀ e ∈ edges, e.2 < 2 ^ 31) :
    acceptMove edges thr m = true ↔
      (curN edges m = maxN edges ∨ thr ≤ (curN edges m : Int)) := by
  unfold acceptMove
  rw [toInt32_of_lt (curN_lt_of edges m h)]
  simp

theorem acceptLoop_spec (edges : List (Nat × Nat)) (thr : Int) (term : Nat → Bool) :
    ∀ answers : List Nat,
      (acceptLoop edges thr term answers).1
          = answers.find? (fun a => acceptMove edges thr a)
        ∧ (acceptLoop edges thr term answers).2.2
          = (answers.takeWhile (fun a => !acceptMove edges thr a)).length
        ∧ (acceptLoop edges thr term answers).2.1
          = (answers.takeWhile (fun a => !acceptMove edges thr a)).filter
              (fun a => !term a) := by
  intro answers
  induction answers with
  | nil => simp [acceptLoop]
  | cons a rest ih =>
    by_cases h : acceptMove edges thr a
    · simp [acceptLoop, h, List.find?_cons, List.takeWhile_cons]
    · by_cases ht : term a <;>
        simp [acceptLoop, h, ht, List.find?_cons, List.takeWhile_cons,
          List.filter_cons, ih.1, ih.2.1, ih.2.2]

/-- Claim C1, counterexample to the claim as stated: with edges
`{A: 2^31 + 5, B: 2^31}`, reported best move `B` and minimum-visits
threshold 20, `B`'s visit count is at least 20 and yet the move is rejected,
because the source compares the `uint32_t` visit count through
`static_cast<int>`, which is negative for counts of `2^31` and above. -/
theorem C1_claim_counterexample :
    ¬ (acceptMove [(0, 2 ^ 31 + 5), (1, 2 ^ 31)] 20 1 = true ↔
        (curN [(0, 2 ^ 31 + 5), (1, 2 ^ 31)] 1 = maxN [(0, 2 ^ 31 + 5), (1, 2 ^ 31)] ∨
          (20 : Int) ≤ (curN [(0, 2 ^ 31 + 5), (1, 2 ^ 31)] 1 : Int))) := by
  decide

/-- Claim C1 (amended): whenever every edge's visit count is below `2^31`
(so that the source's `static_cast<int>` is the identity), the reported best
move is accepted exactly when its visit count equals the maximum visit count
over all legal edges or is at least the configured minimum-visits threshold;
the loop accepts the first reported answer satisfying this criterion, and the
search is told to discard its answer once per rejected answer before it. -/
theorem C1_move_acceptance (edges : List (Nat × Nat)) (thr : Int)
    (term : Nat → Bool) (answers : List Nat)
    (h : ∀ e ∈ edges, e.2 < 2 ^ 31) :
    (∀ m, acceptMove edges thr m = true ↔
        (curN edges m = maxN edges ∨ thr ≤ (curN edges m : Int)))
      ∧ (acceptLoop edges thr term answers).1
          = answers.find? (fun a => acceptMove edges thr a)
      ∧ (acceptLoop edges thr term answers).2.2
          = (answers.takeWhile (fun a => !acceptMove edges thr a)).length :=
  ⟨fun m => acceptMove_iff edges thr m h,
    (acceptLoop_spec edges thr term answers).1,
    (acceptLoop_spec edges thr term answers).2.1⟩

/-- Claim C1, witness: the spec's own example - edges `{A:50, B:50, C:10}`,
reported move `C`, threshold 20 - instantiates the amended theorem: `C` is
rejected, and on retry the answer `B` (visits 50 = maximum) is accepted
after exactly one discard. -/
theorem C1_move_acceptance_witness :
    (∀ e ∈ [((0 : Nat), (50 : Nat)), (1, 50), (2, 10)], e.2 < 2 ^ 31)
      ∧ (acceptMove [(0, 50), (1, 50), (2, 10)] 20 2 = true ↔
          (curN [(0, 50), (1, 50), (2, 10)] 2 = maxN [(0, 50), (1, 50), (2, 10)] ∨
            (20 : Int) ≤ (curN [(0, 50), (1, 50), (2, 10)] 2 : Int)))
      ∧ (acceptLoop [(0, 50), (1, 50), (2, 10)] 20 (fun _ => false) [2, 1]).1
          = [2, 1].find? (fun a => acceptMove [(0, 50), (1, 50), (2, 10)] 20 a) :=
  ⟨by decide,
    (C1_move_acceptance [(0, 50), (1, 50), (2, 10)] 20 (fun _ => false) [2, 1]
      (by decide)).1 2,
    (C1_move_acceptance [(0, 50), (1, 50), (2, 10)] 20 (fun _ => false) [2, 1]
      (by decide)).2.1⟩

/-- Claim C10, counterexample to the claim as stated: with the default
threshold 0 and edges `{A: 2^31 + 1, B: 2^31}`, the reported answer `B` is
discarded (one `ResetBestMove`, one discarded-opening report) because
`static_cast<int>(2^31)` is negative, so the loop does not terminate on its
first iteration. -/
theorem C10_claim_counterexample :
    acceptLoop [(0, 2 ^ 31 + 1), (1, 2 ^ 31)] kMinimumAllowedVisitsDefault
        (fun _ => false) [1, 0] = (some 0, [1], 1)
      ∧ ((some 0, [1], 1) : Option Nat × List Nat × Nat) ≠ (some 1, [], 0) := by
  exact ⟨by decide, by decide⟩

/-- Claim C10 (amended): with the minimum-allowed-visits threshold at its
default of 0, the acceptance loop terminates on its first iteration - the
first reported answer is accepted, no discarded-opening callback fires and
the search is never asked to reset its best move - for every decision point
at which the reported move's visit count is below `2^31` (equivalently,
whose `static_cast<int>` image is non-negative). -/
theorem C10_default_threshold (edges : List (Nat × Nat)) (term : Nat → Bool)
    (a : Nat) (rest : List Nat) (h : curN edges a < 2 ^ 31) :
    acceptLoop edges kMinimumAllowedVisitsDefault term (a :: rest)
      = (some a, [], 0) := by
  have hacc : acceptMove edges kMinimumAllowedVisitsDefault a = true := by
    unfold acceptMove
    rw [toInt32_of_lt h]
    simp [kMinimumAllowedVisitsDefault]
  simp [acceptLoop, hacc]

/-- Claim C10, witness: a concrete decision point with the default
threshold where the first answer is accepted at once. -/
theorem C10_default_threshold_witness :
    curN [((0 : Nat), (50 : Nat))] 0 < 2 ^ 31
      ∧ acceptLoop [(0, 50)] kMinimumAllowedVisitsDefault (fun _ => false) [0, 5]
          = (some 0, [], 0) :=
  ⟨by decide, C10_default_threshold [(0, 50)] (fun _ => false) 0 [5] (by decide)⟩

/-! ## Resignation (claims C3 and C8) -/

/-- Claim C3, counterexample to the claim as stated: with a configured
percentage of 60 (threshold `1 - 0.6 = 0.4`), white to move, `wl = 0` and
`d = 1/10`, the win-for-mover and win-for-opponent probabilities are both
`9/20 > 2/5`; the claim, applied to the opponent-win probability, demands
the opponent (black) be declared the winner, but the source checks `best_w`
first and declares the mover (white) the winner. -/
theorem C3_claim_counterexample :
    (((0 : ℚ) + 1 - 1 / 10) / 2 - 0 > 1 - (60 : ℚ) / 100)
      ∧ resignCheck ⟨true, 60, 0⟩ true 10 false 0 (1 / 10) = some WHITE_WON
      ∧ some WHITE_WON ≠ some BLACK_WON := by
  refine ⟨by norm_num, ?_, by simp⟩
  norm_num [resignCheck]

/-- Claim C3 (amended): in margin-mode resignation (WDL style on,
resignation enabled, move number at or past the earliest-resignation
threshold) the three outcome probabilities are tested against
`1 - percentage` in the fixed order win-for-mover, win-for-opponent, draw,
and the first one found to exceed the threshold ends the game immediately
with its corresponding terminal outcome - the mover's colour mapped to the
winning side independently of which side is to move.  (When at most one
probability exceeds the threshold - in particular whenever the percentage is
at most 50, as in the spec's 5% example - this is exactly the outcome
corresponding to the exceeding probability.) -/
theorem C3_margin_resignation (opts : ResignOptions) (moveNumber : Nat)
    (blacksMove : Bool) (wl d : ℚ)
    (hstyle : opts.resignWDLStyle = true)
    (hmn : moveNumber ≥ opts.resignEarliestMove) :
    (((wl + 1 - d) / 2 > 1 - opts.resignPercentage / 100) →
        resignCheck opts true moveNumber blacksMove wl d
          = some (if blacksMove then BLACK_WON else WHITE_WON))
      ∧ (¬((wl + 1 - d) / 2 > 1 - opts.resignPercentage / 100) →
          ((wl + 1 - d) / 2 - wl > 1 - opts.resignPercentage / 100) →
          resignCheck opts true moveNumber blacksMove wl d
            = some (if blacksMove then WHITE_WON else BLACK_WON))
      ∧ (¬((wl + 1 - d) / 2 > 1 - opts.resignPercentage / 100) →
          ¬((wl + 1 - d) / 2 - wl > 1 - opts.resignPercentage / 100) →
          (d > 1 - opts.resignPercentage / 100) →
          resignCheck opts true moveNumber blacksMove wl d = some DRAW)
      ∧ (¬((wl + 1 - d) / 2 > 1 - opts.resignPercentage / 100) →
          ¬((wl + 1 - d) / 2 - wl > 1 - opts.resignPercentage / 100) →
          ¬(d > 1 - opts.resignPercentage / 100) →
          resignCheck opts true moveNumber blacksMove wl d = none) := by
  unfold resignCheck
  rw [if_pos ⟨rfl, hmn⟩, if_pos hstyle]
  refine ⟨fun h1 => ?_, fun h1 h2 => ?_, fun h1 h2 h3 => ?_, fun h1 h2 h3 => ?_⟩
  · rw [if_pos h1]
  · rw [if_neg h1, if_pos h2]
  · rw [if_neg h1, if_neg h2, if_pos h3]
  · rw [if_neg h1, if_neg h2, if_neg h3]

/-- Claim C3, witness: the spec's example - probabilities
`(0.97, 0.02, 0.01)` (so `wl = 0.96`, `d = 0.02`), percentage 5, move 10,
earliest move 1, white to move - ends the game at once as a win for the side
the 0.97 figure favours. -/
theorem C3_margin_resignation_witness :
    (⟨true, 5, 1⟩ : ResignOptions).resignWDLStyle = true
      ∧ 10 ≥ (⟨true, 5, 1⟩ : ResignOptions).resignEarliestMove
      ∧ (((96 : ℚ) / 100 + 1 - 2 / 100) / 2 > 1 - (5 : ℚ) / 100)
      ∧ resignCheck ⟨true, 5, 1⟩ true 10 false (96 / 100) (2 / 100)
          = some WHITE_WON := by
  refine ⟨rfl, by norm_num, by norm_num, ?_⟩
  have h := (C3_margin_resignation ⟨true, 5, 1⟩ 10 false (96 / 100) (2 / 100)
    rfl (by norm_num)).1 (by norm_num)
  simpa using h

/-- Claim C8: in absolute resignation mode with the percentage configured
to 0, the centered win probability `(wl + 1)/2` of the side to move - a
value in `[0, 1]` whenever `wl ≥ -1` - can never fall strictly below 0, so
the resignation branch never fires and no game ends early via resignation,
whatever the evaluations are. -/
theorem C8_no_resign_when_disabled (opts : ResignOptions) (enableResign : Bool)
    (moveNumber : Nat) (blacksMove : Bool) (wl d : ℚ)
    (hstyle : opts.resignWDLStyle = false)
    (hpct : opts.resignPercentage = 0)
    (hwl : (-1 : ℚ) ≤ wl) :
    resignCheck opts enableResign moveNumber blacksMove wl d = none := by
  unfold resignCheck
  rw [hstyle, hpct]
  by_cases hc : enableResign = true ∧ moveNumber ≥ opts.resignEarliestMove
  · rw [if_pos hc]
    simp only [Bool.false_eq_true, if_false]
    rw [if_neg]
    intro hcontra
    have : (0 : ℚ) ≤ (wl + 1) / 2 := by linarith
    have h0 : (0 : ℚ) / 100 = 0 := by norm_num
    rw [h0] at hcontra
    linarith
  · rw [if_neg hc]

/-- Claim C8, witness: a maximally lost evaluation (`wl = -1`, centered win
probability 0) with resignation percentage 0 does not end the game. -/
theorem C8_no_resign_when_disabled_witness :
    (⟨false, 0, 0⟩ : ResignOptions).resignWDLStyle = false
      ∧ (⟨false, 0, 0⟩ : ResignOptions).resignPercentage = 0
      ∧ ((-1 : ℚ) ≤ -1)
      ∧ resignCheck ⟨false, 0, 0⟩ true 10 false (-1) 0 = none :=
  ⟨rfl, rfl, le_refl _,
    C8_no_resign_when_disabled ⟨false, 0, 0⟩ true 10 false (-1) 0 rfl rfl (le_refl _)⟩

/-! ## Training-record backfill (claim C2) -/

theorem writeLoop_length (r : GameResult) :
    ∀ (data : List V5TrainingData) (m : ℚ),
      (writeLoop r m data).length = data.length := by
  intro data
  induction data with
  | nil => intro m; rfl
  | cons x rest ih => intro m; simp [writeLoop, ih (m - 1)]

theorem writeLoop_getElem (r : GameResult) :
    ∀ (data : List V5TrainingData) (m : ℚ) (k : Nat) (c : V5TrainingData),
      data[k]? = some c →
      (writeLoop r m data)[k]? = some (backfillChunk r (m - k) c) := by
  intro data
  induction data with
  | nil => intro m k c h; simp at h
  | cons x rest ih =>
    intro m k c h
    cases k with
    | zero =>
      simp only [List.getElem?_cons_zero, Option.some_inj] at h
      subst h
      simp [writeLoop]
    | succ k =>
      simp only [List.getElem?_cons_succ] at h
      have h2 := ih (m - 1) k c h
      have hc : m - 1 - (k : ℚ) = m - ((k + 1 : Nat) : ℚ) := by push_cast; ring
      rw [writeLoop]
      simpa [hc] using h2

/-- Claim C2: for a non-empty captured record list the backfill hands the
writer one record per captured record, in capture order; the k-th record
(0-based) carries the moves-remaining label
`last.best_m + (n - 1) - k` and the outcome label `+1` when the record's own
side to move is the declared winner, `-1` when the opponent won, `0` for a
draw, the side to move being read from bit 7 of `invariance_info` exactly
for the canonicalized input format; an empty record list produces no writer
calls. -/
theorem C2_training_backfill (r : GameResult) (data : List V5TrainingData)
    (last : V5TrainingData) (hlast : data.getLast? = some last) :
    (writeTrainingData r data).length = data.length
      ∧ (∀ (k : Nat) (c : V5TrainingData), data[k]? = some c →
          (writeTrainingData r data)[k]? = some
            { c with
              result := outcomeLabel r (chunkBlackToMove c)
              plies_left := last.best_m + data.length - 1 - k })
      ∧ writeTrainingData r [] = [] := by
  have hw : writeTrainingData r data
      = writeLoop r (last.best_m + data.length - 1) data := by
    unfold writeTrainingData
    rw [hlast]
  refine ⟨by rw [hw]; exact writeLoop_length r data _, fun k c h => ?_, rfl⟩
  rw [hw]
  have h2 := writeLoop_getElem r data (last.best_m + data.length - 1) k c h
  simpa [backfillChunk] using h2

/-- Claim C2, witness: the spec's example - three records, the last captured
with the canonicalized input format and bit 7 of `invariance_info` set
(black to move) and a model moves-left estimate of 4, the game won by that
side - receives moves-remaining labels 6, 5, 4 in capture order and outcome
labels -1, +1, +1 matching each record's own side to move. -/
theorem C2_training_backfill_witness :
    ([⟨InputFormat.INPUT_CLASSICAL_112_PLANE, 0, 0, 9, 0, 0⟩,
      ⟨InputFormat.INPUT_CLASSICAL_112_PLANE, 1, 0, 7, 0, 0⟩,
      ⟨InputFormat.INPUT_112_WITH_CANONICALIZATION, 0, 128, 4, 0, 0⟩]
        : List V5TrainingData).getLast?
      = some ⟨InputFormat.INPUT_112_WITH_CANONICALIZATION, 0, 128, 4, 0, 0⟩
    ∧ (writeTrainingData BLACK_WON
        [⟨InputFormat.INPUT_CLASSICAL_112_PLANE, 0, 0, 9, 0, 0⟩,
         ⟨InputFormat.INPUT_CLASSICAL_112_PLANE, 1, 0, 7, 0, 0⟩,
         ⟨InputFormat.INPUT_112_WITH_CANONICALIZATION, 0, 128, 4, 0, 0⟩])[0]?
      = some ⟨InputFormat.INPUT_CLASSICAL_112_PLANE, 0, 0, 9, -1, 6⟩
    ∧ (writeTrainingData BLACK_WON
        [⟨InputFormat.INPUT_CLASSICAL_112_PLANE, 0, 0, 9, 0, 0⟩,
         ⟨InputFormat.INPUT_CLASSICAL_112_PLANE, 1, 0, 7, 0, 0⟩,
         ⟨InputFormat.INPUT_112_WITH_CANONICALIZATION, 0, 128, 4, 0, 0⟩])[1]?
      = some ⟨InputFormat.INPUT_CLASSICAL_112_PLANE, 1, 0, 7, 1, 5⟩
    ∧ (writeTrainingData BLACK_WON
        [⟨InputFormat.INPUT_CLASSICAL_112_PLANE, 0, 0, 9, 0, 0⟩,
         ⟨InputFormat.INPUT_CLASSICAL_112_PLANE, 1, 0, 7, 0, 0⟩,
         ⟨InputFormat.INPUT_112_WITH_CANONICALIZATION, 0, 128, 4, 0, 0⟩])[2]?
      = some ⟨InputFormat.INPUT_112_WITH_CANONICALIZATION, 0, 128, 4, 1, 4⟩ := by
  have hth := C2_training_backfill BLACK_WON
    [⟨InputFormat.INPUT_CLASSICAL_112_PLANE, 0, 0, 9, 0, 0⟩,
     ⟨InputFormat.INPUT_CLASSICAL_112_PLANE, 1, 0, 7, 0, 0⟩,
     ⟨InputFormat.INPUT_112_WITH_CANONICALIZATION, 0, 128, 4, 0, 0⟩]
    ⟨InputFormat.INPUT_112_WITH_CANONICALIZATION, 0, 128, 4, 0, 0⟩ rfl
  refine ⟨rfl, ?_, ?_, ?_⟩
  · refine (hth.2.1 0 _ rfl).trans ?_
    norm_num [chunkBlackToMove, outcomeLabel]
  · refine (hth.2.1 1 _ rfl).trans ?_
    norm_num [chunkBlackToMove, outcomeLabel]
    decide
  · refine (hth.2.1 2 _ rfl).trans ?_
    norm_num [chunkBlackToMove, outcomeLabel]
    decide

/-! ## Batch one-ply selection (claim C4) -/

theorem selectStep_none_left (x : Nat × ℚ) : selectStep none x = some x := rfl

theorem selectStep_some (a x : Nat × ℚ) :
    selectStep (some a) x = if x.2 ≥ a.2 then some x else some a := rfl

theorem selectComb_none (o : Option (Nat × ℚ)) : selectComb none o = o := by
  cases o with
  | none => rfl
  | some y => rfl

theorem selectStep_assoc (acc : Option (Nat × ℚ)) (x y : Nat × ℚ) :
    selectStep (selectStep acc x) y = selectStep acc (if y.2 ≥ x.2 then y else x) := by
  cases acc with
  | none =>
    show selectStep (some x) y = selectStep none _
    rw [selectStep_some, selectStep_none_left]
    split_ifs <;> rfl
  | some a =>
    rw [selectStep_some a x]
    by_cases h1 : x.2 ≥ a.2
    · rw [if_pos h1, selectStep_some]
      by_cases h2 : y.2 ≥ x.2
      · rw [if_pos h2, if_pos h2, selectStep_some, if_pos (le_trans h1 h2)]
      · rw [if_neg h2, if_neg h2, selectStep_some, if_pos h1]
    · rw [if_neg h1]
      by_cases h2 : y.2 ≥ x.2
      · rw [if_pos h2]
      · rw [if_neg h2, selectStep_some, selectStep_some, if_neg h1]
        have hy : ¬ (y.2 ≥ a.2) := by
          push_neg at h1 h2 ⊢
          linarith
        rw [if_neg hy]

theorem lastArgmax_cons (x : Nat × ℚ) (l : List (Nat × ℚ)) :
    lastArgmax (x :: l) = selectComb (some x) (lastArgmax l) := by
  cases h : lastArgmax l with
  | none => simp [lastArgmax, h, selectComb]
  | some y => simp [lastArgmax, h, selectComb, selectStep_some]

theorem lastArgmax_cons_ne_none (x : Nat × ℚ) (l : List (Nat × ℚ)) :
    lastArgmax (x :: l) ≠ none := by
  rw [lastArgmax_cons]
  cases h : lastArgmax l with
  | none => simp [selectComb]
  | some y =>
    rw [show selectComb (some x) (some y) = selectStep (some x) y from rfl,
      selectStep_some]
    split_ifs <;> simp

theorem foldl_selectBest (l : List (Nat × EdgeEval)) :
    ∀ acc, l.foldl (fun acc e => selectStep acc (e.1, edgeScore e.2)) acc
      = selectComb acc (lastArgmax (l.map fun e => (e.1, edgeScore e.2))) := by
  induction l with
  | nil => intro acc; rfl
  | cons x r ih =>
    intro acc
    rw [List.foldl_cons, ih, List.map_cons, lastArgmax_cons]
    cases hr : lastArgmax (r.map fun e => (e.1, edgeScore e.2)) with
    | none =>
      show selectStep acc (x.1, edgeScore x.2)
        = selectComb acc (selectComb (some (x.1, edgeScore x.2)) none)
      rfl
    | some y =>
      show selectStep (selectStep acc (x.1, edgeScore x.2)) y
        = selectComb acc (selectStep (some (x.1, edgeScore x.2)) y)
      rw [selectStep_some (x.1, edgeScore x.2) y,
        selectStep_assoc acc (x.1, edgeScore x.2) y]
      split_ifs <;> rfl

theorem selectBestMove_eq (edges : List (Nat × EdgeEval)) :
    selectBestMove edges = lastArgmax (edges.map fun e => (e.1, edgeScore e.2)) := by
  unfold selectBestMove
  rw [foldl_selectBest, selectComb_none]

theorem lastArgmax_le :
    ∀ (l : List (Nat × ℚ)) (y : Nat × ℚ), lastArgmax l = some y →
      ∀ x ∈ l, x.2 ≤ y.2 := by
  intro l
  induction l with
  | nil => intro y h; simp [lastArgmax] at h
  | cons a r ih =>
    intro y h x hx
    rw [List.mem_cons] at hx
    rw [lastArgmax_cons] at h
    cases hr : lastArgmax r with
    | none =>
      rw [hr] at h
      rw [show selectComb (some a) none = some a from rfl, Option.some_inj] at h
      subst h
      rcases hx with rfl | hxr
      · exact le_refl _
      · exfalso
        cases r with
        | nil => simp at hxr
        | cons b s => exact lastArgmax_cons_ne_none b s hr
    | some z =>
      rw [hr] at h
      rw [show selectComb (some a) (some z) = selectStep (some a) z from rfl,
        selectStep_some] at h
      rcases hx with rfl | hxr
      · split_ifs at h with hge <;> rw [Option.some_inj] at h <;> subst h
        · exact hge
        · exact le_refl _
      · have hz := ih z hr x hxr
        split_ifs at h with hge <;> rw [Option.some_inj] at h <;> subst h
        · exact hz
        · push_neg at hge
          linarith

/-- Claim C4: in the batch value driver each candidate move is scored
`-q` (negated model value) for a non-terminal continuation, `0` for a
terminal draw and `1` for any other terminal; the applied move is the
entry of greatest score under the non-strict `q >= max_q` update, i.e. the
selection equals the last-argmax of the scored edge list: its score bounds
every edge's score, and two edges of identical score select the
later-enumerated one. -/
theorem C4_batch_selection (edges : List (Nat × EdgeEval)) :
    ((∀ q, edgeScore (EdgeEval.undecided q) = -q)
        ∧ edgeScore EdgeEval.terminalDraw = 0
        ∧ edgeScore EdgeEval.terminalOther = 1)
      ∧ selectBestMove edges = lastArgmax (edges.map fun e => (e.1, edgeScore e.2))
      ∧ (∀ m s, selectBestMove edges = some (m, s) →
          ∀ e ∈ edges, edgeScore e.2 ≤ s)
      ∧ (∀ (m1 m2 : Nat) (v1 v2 : EdgeEval), edgeScore v1 = edgeScore v2 →
          selectBestMove [(m1, v1), (m2, v2)] = some (m2, edgeScore v2)) := by
  refine ⟨⟨fun q => rfl, rfl, rfl⟩, selectBestMove_eq edges,
    fun m s h e he => ?_, fun m1 m2 v1 v2 hv => ?_⟩
  · have h2 : lastArgmax (edges.map fun e => (e.1, edgeScore e.2)) = some (m, s) := by
      rw [← selectBestMove_eq]
      exact h
    have h3 := lastArgmax_le _ _ h2 (e.1, edgeScore e.2)
      (List.mem_map_of_mem _ he)
    simpa using h3
  · show selectStep (selectStep none (m1, edgeScore v1)) (m2, edgeScore v2) = _
    rw [selectStep_none_left, selectStep_some, if_pos hv.le]

/-- Claim C4, witness: two candidate moves whose continuations the model
scores identically; the later-enumerated move (7) is the one selected. -/
theorem C4_batch_selection_witness :
    selectBestMove [(5, EdgeEval.undecided (1 / 2)), (7, EdgeEval.undecided (1 / 2))]
      = some (7, -(1 / 2)) := by
  have h := (C4_batch_selection
    [(5, EdgeEval.undecided (1 / 2)), (7, EdgeEval.undecided (1 / 2))]).2.2.2
    5 7 (EdgeEval.undecided (1 / 2)) (EdgeEval.undecided (1 / 2)) rfl
  exact h

/-! ## Tablebase probing (claim C5) -/

theorem wdlToResult_ne_undecided (tb : Bool) (w : WDLScore) :
    wdlToResult tb w ≠ UNDECIDED := by
  cases w <;> cases tb <;> simp [wdlToResult]

theorem evalEligible_of_decided (r : GameResult) (plyCount : Nat)
    (blacksMove : Bool) (h : r ≠ UNDECIDED) :
    evalEligible r plyCount blacksMove = false := by
  unfold evalEligible
  rw [beq_eq_false_iff_ne.mpr h, Bool.false_and]

/-- Claim C5: for a game that is still undecided when a wave's first pass
reaches it (stored result undecided and recomputed position result still
undecided - a newly terminal game records that result and skips the probe),
the tablebase is probed exactly when one is configured, no side retains
castling rights and the piece count is within the tablebase's cardinality;
a probe whose state is not FAIL immediately sets the game's result by the
side-aware WDL mapping (win/loss to the side to move at the probed position,
cursed wins and blessed losses to draws), which excludes the game from the
wave's batched model evaluation, while a FAIL probe leaves the game
undecided so it falls through to model evaluation. -/
theorem C5_tablebase_probe (syzygy : Option Nat) (ctx : VGameCtx)
    (hpos : ctx.posResult = UNDECIDED) :
    ((resultUpdate syzygy ctx UNDECIDED).2 = true ↔
        ∃ mc, syzygy = some mc ∧ ctx.no_legal_castle = true ∧ ctx.piece_count ≤ mc)
      ∧ (ctx.probeState ≠ ProbeState.FAIL →
          (resultUpdate syzygy ctx UNDECIDED).2 = true →
          (resultUpdate syzygy ctx UNDECIDED).1
              = wdlToResult (decide (ctx.plyCount % 2 = 1)) ctx.probeWdl
            ∧ ∀ waveColor,
                evalEligible (resultUpdate syzygy ctx UNDECIDED).1 ctx.plyCount
                    waveColor
                  = false)
      ∧ (ctx.probeState = ProbeState.FAIL →
          (resultUpdate syzygy ctx UNDECIDED).1 = UNDECIDED)
      ∧ (∀ tb : Bool,
          wdlToResult tb WDLScore.WDL_WIN = (if tb then BLACK_WON else WHITE_WON)
            ∧ wdlToResult tb WDLScore.WDL_LOSS = (if tb then WHITE_WON else BLACK_WON)
            ∧ wdlToResult tb WDLScore.WDL_CURSED_WIN = DRAW
            ∧ wdlToResult tb WDLScore.WDL_BLESSED_LOSS = DRAW
            ∧ wdlToResult tb WDLScore.WDL_DRAW = DRAW) := by
  have hstepn : resultUpdate none ctx UNDECIDED = (UNDECIDED, false) := by
    unfold resultUpdate
    rw [if_neg (by simp), if_neg (by simp [hpos])]
  have hstep : ∀ mc, resultUpdate (some mc) ctx UNDECIDED
      = if ctx.no_legal_castle ∧ ctx.piece_count ≤ mc then
          if ctx.probeState ≠ ProbeState.FAIL then
            (wdlToResult (decide (ctx.plyCount % 2 = 1)) ctx.probeWdl, true)
          else (UNDECIDED, true)
        else (UNDECIDED, false) := by
    intro mc
    unfold resultUpdate
    rw [if_neg (by simp), if_neg (by simp [hpos])]
  refine ⟨?_, fun hnf hp => ?_, fun hf => ?_, fun tb => by cases tb <;> simp [wdlToResult]⟩
  · cases syzygy with
    | none => rw [hstepn]; simp
    | some mc =>
      rw [hstep]
      by_cases hc : ctx.no_legal_castle ∧ ctx.piece_count ≤ mc
      · rw [if_pos hc]
        constructor
        · exact fun _ => ⟨mc, rfl, hc.1, hc.2⟩
        · intro
          by_cases hfl : ctx.probeState ≠ ProbeState.FAIL
          · rw [if_pos hfl]
          · rw [if_neg hfl]
      · rw [if_neg hc]
        simp only [ite_self]
        constructor
        · intro hfalse
          exact absurd hfalse (by simp)
        · rintro ⟨mc2, hmc2, h1, h2⟩
          rw [Option.some_inj] at hmc2
          subst hmc2
          exact absurd ⟨h1, h2⟩ hc
  · cases syzygy with
    | none => rw [hstepn] at hp; simp at hp
    | some mc =>
      rw [hstep] at hp ⊢
      by_cases hc : ctx.no_legal_castle ∧ ctx.piece_count ≤ mc
      · rw [if_pos hc, if_pos hnf]
        exact ⟨rfl, fun waveColor => evalEligible_of_decided _ _ _
          (wdlToResult_ne_undecided _ _)⟩
      · rw [if_neg hc] at hp
        simp at hp
  · cases syzygy with
    | none => rw [hstepn]
    | some mc =>
      rw [hstep]
      by_cases hc : ctx.no_legal_castle ∧ ctx.piece_count ≤ mc
      · rw [if_pos hc, if_neg (by simp [hf])]
      · rw [if_neg hc]

/-- Claim C5, witness: a six-man tablebase, a castling-free five-piece
position with black to move (ply count 3) and a successful WDL_WIN probe:
the probe fires, black is declared the winner and the game leaves the
wave's evaluation set. -/
theorem C5_tablebase_probe_witness :
    (⟨UNDECIDED, true, 5, 3, WDLScore.WDL_WIN, ProbeState.OK⟩ : VGameCtx).posResult
        = UNDECIDED
      ∧ (resultUpdate (some 6) ⟨UNDECIDED, true, 5, 3, WDLScore.WDL_WIN, ProbeState.OK⟩
          UNDECIDED).2 = true
      ∧ (resultUpdate (some 6) ⟨UNDECIDED, true, 5, 3, WDLScore.WDL_WIN, ProbeState.OK⟩
          UNDECIDED).1
        = wdlToResult
            (decide ((⟨UNDECIDED, true, 5, 3, WDLScore.WDL_WIN, ProbeState.OK⟩
              : VGameCtx).plyCount % 2 = 1))
            (⟨UNDECIDED, true, 5, 3, WDLScore.WDL_WIN, ProbeState.OK⟩
              : VGameCtx).probeWdl := by
  refine ⟨rfl, ?_, ?_⟩
  · exact (C5_tablebase_probe (some 6)
      ⟨UNDECIDED, true, 5, 3, WDLScore.WDL_WIN, ProbeState.OK⟩ rfl).1.mpr
      ⟨6, rfl, rfl, by norm_num⟩
  · exact ((C5_tablebase_probe (some 6)
      ⟨UNDECIDED, true, 5, 3, WDLScore.WDL_WIN, ProbeState.OK⟩ rfl).2.1
      (by simp) (by decide)).1

/-! ## Result monotonicity (claim C6) -/

theorem resultUpdate_decided (syzygy : Option Nat) (ctx : VGameCtx)
    (r : GameResult) (h : r ≠ UNDECIDED) : resultUpdate syzygy ctx r = (r, false) := by
  unfold resultUpdate
  rw [if_pos h]

theorem slotStep_decided (w : WaveCtx) (s : VSlot) (h : s.result ≠ UNDECIDED) :
    slotStep w s = s := by
  unfold slotStep
  rw [resultUpdate_decided _ _ _ h]
  rw [if_neg (by rw [evalEligible_of_decided _ _ _ h]; simp)]

/-- Claim C6: terminal outcome is monotonic per game.  In the single-game
driver, as soon as the recomputed result of the current history is decided
the turn loop exits returning that result and applies no move; in the batch
value driver, a game whose stored result is decided is left completely
untouched - result and tree alike - by every subsequent wave. -/
theorem C6_monotonic :
    (∀ (cfg : SGConfig) (oracle : List Nat → SGTurnCtx)
        (computeResult : List Nat → GameResult) (fuel : Nat) (blacksMove : Bool)
        (hist : List Nat), computeResult hist ≠ UNDECIDED →
        sgPlay cfg oracle computeResult (fuel + 1) blacksMove hist
          = (computeResult hist, []))
      ∧ (∀ (w : WaveCtx) (s : VSlot), s.result ≠ UNDECIDED → slotStep w s = s)
      ∧ (∀ (ws : List WaveCtx) (s : VSlot), s.result ≠ UNDECIDED →
          ws.foldl (fun s w => slotStep w s) s = s) := by
  refine ⟨fun cfg oracle computeResult fuel b hist h => ?_,
    fun w s h => slotStep_decided w s h, fun ws => ?_⟩
  · simp [sgPlay, h]
  · induction ws with
    | nil => intro s h; rfl
    | cons w ws ih =>
      intro s h
      rw [List.foldl_cons, slotStep_decided w s h]
      exact ih s h

/-- Claim C6, witness: a drawn game - the single-game driver's loop exits
at once without applying a move, and a two-wave batch run leaves the drawn
slot untouched. -/
theorem C6_monotonic_witness :
    ((fun _ : List Nat => DRAW) [] ≠ UNDECIDED)
      ∧ sgPlay ⟨fun _ => ⟨false, 0, 0⟩, fun _ => 0, false, 0⟩
          (fun _ => ⟨0, 0, [], [], fun _ => false⟩) (fun _ => DRAW) 1 false []
          = (DRAW, [])
      ∧ ((⟨DRAW, [4]⟩ : VSlot).result ≠ UNDECIDED)
      ∧ [⟨false, none, fun _ => ⟨UNDECIDED, false, 2, 0, WDLScore.WDL_DRAW,
            ProbeState.OK⟩, fun _ => []⟩,
          ⟨true, none, fun _ => ⟨UNDECIDED, false, 2, 1, WDLScore.WDL_DRAW,
            ProbeState.OK⟩, fun _ => []⟩].foldl
          (fun s w => slotStep w s) (⟨DRAW, [4]⟩ : VSlot)
        = ⟨DRAW, [4]⟩ := by
  refine ⟨by decide, ?_, by decide, ?_⟩
  · exact C6_monotonic.1 ⟨fun _ => ⟨false, 0, 0⟩, fun _ => 0, false, 0⟩
      (fun _ => ⟨0, 0, [], [], fun _ => false⟩) (fun _ => DRAW) 0 false []
      (by decide)
  · exact C6_monotonic.2.2 _ ⟨DRAW, [4]⟩ (by decide)

/-! ## Move-list reconstruction (claim C7) -/

theorem getMovesLoop_replay {Pos Move : Type} (chess960 : Bool)
    (apply : Pos → Move → Pos) (mirrorMove : Move → Move)
    (isBlackToMove : Pos → Bool) (getLegacy : Pos → Move → Move)
    (hmirror : ∀ m, mirrorMove (mirrorMove m) = m)
    (hflip : ∀ p m, isBlackToMove (apply p m) = !isBlackToMove p)
    (hlegacy : ∀ p m, apply p (getLegacy p m) = apply p m) :
    ∀ (ms : List Move) (pos : Pos),
      replay apply mirrorMove isBlackToMove pos
          (getMovesLoop chess960 apply mirrorMove isBlackToMove getLegacy pos ms)
        = ms.foldl apply pos := by
  intro ms
  induction ms with
  | nil => intro pos; rfl
  | cons m rest ih =>
    intro pos
    have hM1 : apply pos (legacyConvert chess960 getLegacy pos m) = apply pos m := by
      cases chess960 with
      | false => simpa [legacyConvert] using hlegacy pos m
      | true => simp [legacyConvert]
    simp only [getMovesLoop, replay, hflip, Bool.not_not]
    cases hb : isBlackToMove pos with
    | false =>
      simp only [hb, Bool.false_eq_true, if_neg, ite_false]
      rw [ih, hM1, List.foldl_cons]
    | true =>
      simp only [hb, ite_true, hmirror]
      rw [ih, hM1, List.foldl_cons]

/-- Claim C7 (spec-modelled board semantics): for every finished game, the
externally encoded move list produced by `GetMoves` - parent-link walk back
to the game-begin node, then forward re-encoding with color-relative
mirroring and, when extended castling notation is off, legacy-castling
downgrade - replays from the Opening's starting position to exactly the
final position held by the tree.  The board collaborators obey the spec's
laws: mirroring is an involution, applying a move flips the side to move,
and the legacy downgrade re-encodes the same move. -/
theorem C7_reconstruction {Pos Move : Type} (chess960 : Bool)
    (apply : Pos → Move → Pos) (mirrorMove : Move → Move)
    (isBlackToMove : Pos → Bool) (getLegacy : Pos → Move → Move)
    (hmirror : ∀ m, mirrorMove (mirrorMove m) = m)
    (hflip : ∀ p m, isBlackToMove (apply p m) = !isBlackToMove p)
    (hlegacy : ∀ p m, apply p (getLegacy p m) = apply p m)
    (start : Pos) (chain : NodeChain Move) :
    replay apply mirrorMove isBlackToMove start
        (getMoves chess960 apply mirrorMove isBlackToMove getLegacy start chain)
      = finalPosition apply start chain := by
  unfold getMoves finalPosition internalMoves
  exact getMovesLoop_replay chess960 apply mirrorMove isBlackToMove getLegacy
    hmirror hflip hlegacy (collectBack chain).reverse start

/-- Claim C7, witness: a concrete two-move game over a toy board model
(side-to-move flag plus move log, mirroring trivial) - the reconstruction
replays to the tree's final position. -/
theorem C7_reconstruction_witness :
    (∀ m : Nat, id (id m) = m)
      ∧ (∀ (p : Bool × List Nat) (m : Nat),
          Prod.fst ((fun (p : Bool × List Nat) (m : Nat) => (!p.1, p.2 ++ [m])) p m)
            = !Prod.fst p)
      ∧ (∀ (p : Bool × List Nat) (m : Nat),
          (fun (p : Bool × List Nat) (m : Nat) => (!p.1, p.2 ++ [m])) p
              ((fun (_ : Bool × List Nat) (m : Nat) => m) p m)
            = (fun (p : Bool × List Nat) (m : Nat) => (!p.1, p.2 ++ [m])) p m)
      ∧ replay (fun (p : Bool × List Nat) (m : Nat) => (!p.1, p.2 ++ [m])) id Prod.fst
          (false, [])
          (getMoves false (fun (p : Bool × List Nat) (m : Nat) => (!p.1, p.2 ++ [m]))
            id Prod.fst (fun _ m => m) (false, [])
            (NodeChain.node (NodeChain.node NodeChain.gameBegin 3) 5))
        = finalPosition (fun (p : Bool × List Nat) (m : Nat) => (!p.1, p.2 ++ [m]))
            (false, []) (NodeChain.node (NodeChain.node NodeChain.gameBegin 3) 5) :=
  ⟨fun _ => rfl, fun _ _ => rfl, fun _ _ => rfl,
    C7_reconstruction false (fun (p : Bool × List Nat) (m : Nat) => (!p.1, p.2 ++ [m]))
      id Prod.fst (fun _ m => m) (fun _ => rfl) (fun _ _ => rfl) (fun _ _ => rfl)
      (false, []) (NodeChain.node (NodeChain.node NodeChain.gameBegin 3) 5)⟩

/-! ## Chess960 match mode (claim C9) -/

/-- Claim C9: the match-level chess960 mode is the disjunction of the two
players' per-player flags; the legacy-castling transformer on search
responses and the legacy-castling downgrade in move-list reconstruction are
applied exactly when neither player has the flag set. -/
theorem C9_chess960_disjunction (p1 p2 : Bool) :
    chess960Match p1 p2 = (p1 || p2)
      ∧ (buildResponder (chess960Match p1 p2) = ResponderKind.legacyTransformed
          ↔ (p1 = false ∧ p2 = false))
      ∧ (∀ (Pos Move : Type) (getLegacy : Pos → Move → Move) (pos : Pos) (m : Move),
          p1 = false → p2 = false →
          legacyConvert (chess960Match p1 p2) getLegacy pos m = getLegacy pos m)
      ∧ (∀ (Pos Move : Type) (getLegacy : Pos → Move → Move) (pos : Pos) (m : Move),
          (p1 = true ∨ p2 = true) →
          legacyConvert (chess960Match p1 p2) getLegacy pos m = m) := by
  cases p1 <;> cases p2 <;>
    simp [chess960Match, buildResponder, legacyConvert]

/-- Claim C9, witness: with both flags clear the responder is wrapped in the
legacy transformer and `GetMoves` downgrades moves; with one flag set the
downgrade is skipped. -/
theorem C9_chess960_disjunction_witness :
    buildResponder (chess960Match false false) = ResponderKind.legacyTransformed
      ∧ legacyConvert (chess960Match false false)
          (fun (_ : Nat) (m : Nat) => m + 1) 0 4 = 5
      ∧ legacyConvert (chess960Match true false)
          (fun (_ : Nat) (m : Nat) => m + 1) 0 4 = 4 := by
  refine ⟨(C9_chess960_disjunction false false).2.1.mpr ⟨rfl, rfl⟩, ?_, ?_⟩
  · rw [(C9_chess960_disjunction false false).2.2.1 Nat Nat
      (fun _ m => m + 1) 0 4 rfl rfl]
  · rw [(C9_chess960_disjunction true false).2.2.2 Nat Nat
      (fun _ m => m + 1) 0 4 (Or.inl rfl)]

end Lczero
